import Mathlib

/-!
Shallow embedding of the spectrum-to-display pipeline of
`src/scripts/app.js` (the "Stereo Display App" module with Web Audio API
integration: its `CONFIG`, `getEQLevels`, `updateEQBars`, and the audio
source management functions `initAudioContext`, `stopAudioSource`,
`stopMicrophone`, `toggleMicrophone`, `handleFileSelect`).

JavaScript numbers are modelled as rationals (ℚ); `Math.floor`/`Math.ceil`
are `Int.floor`/`Int.ceil`; the host's `Math.sin` and `Math.random` are
explicit parameters (`hostSin`, and a per-call `noise` sample) since they
are environment-supplied.  DOM/class-list manipulation is presentation
output and is modelled only through the abstract per-segment state and
change flags that the code keeps in its `segments` cache.
-/

/-- `CONFIG.eqBarCount` (app.js line 1454). -/
def eqBarCount : ℕ := 16

/-- `CONFIG.eqSegmentCount` (app.js line 1455). -/
def eqSegmentCount : ℕ := 12

/-- `CONFIG.smoothing` (app.js line 1458): weight of the previous frame. -/
def smoothing : ℚ := 0.6

/-- `CONFIG.peakDecay` (app.js line 1459): peak fall per frame. -/
def peakDecay : ℚ := 0.02

/-- `CONFIG.peakHoldTime` (app.js line 1460): ms to hold a peak. -/
def peakHoldTime : ℚ := 500

/-- The hard-coded `frequencyBands` table in `getEQLevels` (app.js lines
1804-1807): 17 Hz boundaries delimiting the 16 bands. -/
def frequencyBands : List ℚ :=
  [20, 40, 60, 90, 130, 180, 250, 350,
   500, 700, 1000, 1400, 2000, 3500, 6000, 12000, 20000]

/-- The hard-coded `bandGains` table in `getEQLevels` (app.js lines
1810-1813): per-band gain compensation. -/
def bandGains : List ℚ :=
  [1.0, 1.0, 1.0, 1.1, 1.2, 1.3, 1.4, 1.5,
   1.6, 1.8, 2.0, 2.2, 2.5, 2.8, 3.2, 3.6]

/-- `const lowBin = Math.floor(lowFreq / nyquist * binCount)` (app.js 1820). -/
def lowBinOf (lowHz nyquist : ℚ) (B : ℕ) : ℤ :=
  Int.floor (lowHz / nyquist * B)

/-- `const highBin = Math.min(Math.ceil(highFreq / nyquist * binCount), binCount - 1)`
(app.js 1821). -/
def highBinOf (highHz nyquist : ℚ) (B : ℕ) : ℤ :=
  min (Int.ceil (highHz / nyquist * B)) ((B : ℤ) - 1)

/-- The (inclusive) index range `for (let bin = lowBin; bin <= highBin; bin++)`
visited by the averaging loop (app.js 1827-1830); empty when `lo > hi`. -/
def binRange (lo hi : ℤ) : List ℤ :=
  (List.range (hi + 1 - lo).toNat).map (fun (k : ℕ) => lo + (k : ℤ))

/-- The bins read by the averaging loop for one band, given sample rate `sr`
and bin count `B` (`nyquist = sampleRate / 2`, app.js 1799). -/
def readBins (sr : ℚ) (B : ℕ) (lowHz highHz : ℚ) : List ℤ :=
  binRange (lowBinOf lowHz (sr / 2) B) (highBinOf highHz (sr / 2) B)

/-- One band of the live branch of `getEQLevels` before smoothing
(app.js 1816-1834): average the bins, normalize by 255, apply gain,
clamp to at most 1 (`level = count > 0 ? (sum / count) / 255 : 0;
level = Math.min(1, level * bandGains[i])`). -/
def rawBandLevel (m : ℤ → ℚ) (sr : ℚ) (B : ℕ) (lowHz highHz gain : ℚ) : ℚ :=
  let bins := readBins sr B lowHz highHz
  let sum := (bins.map m).sum
  let count := bins.length
  let level : ℚ := if 0 < count then sum / (count : ℚ) / 255 else 0
  min 1 (level * gain)

/-- Band `i` of the live branch, with the module's own tables plugged in
(app.js 1816-1834, `frequencyBands[i]`, `frequencyBands[i+1]`, `bandGains[i]`). -/
def liveBandLevel (m : ℤ → ℚ) (sr : ℚ) (B : ℕ) (i : ℕ) : ℚ :=
  rawBandLevel m sr B (frequencyBands.getD i 0) (frequencyBands.getD (i + 1) 0)
    (bandGains.getD i 0)

/-- One smoothing update, `smoothed = prev * CONFIG.smoothing + raw * (1 - CONFIG.smoothing)`
(app.js 1843-1845 and 1859-1861), with the factor `alpha` abstracted. -/
def smoothStep (alpha smoothed raw : ℚ) : ℚ :=
  smoothed * alpha + raw * (1 - alpha)

/-- The successive smoothed values produced by folding `smoothStep` over a
sequence of raw levels, starting from `s0`. -/
def smoothTrace (alpha s0 : ℚ) : List ℚ → List ℚ
  | [] => []
  | r :: rs => smoothStep alpha s0 r :: smoothTrace alpha (smoothStep alpha s0 r) rs

/-- Argument of the first demo sine, `timestamp / 400 + i * 0.4` (app.js 1852). -/
def wave1Arg (t : ℚ) (i : ℕ) : ℚ := t / 400 + i * 0.4

/-- `base` of the demo branch of `getEQLevels` (app.js 1852-1857):
`0.35 + wave1 + wave2 + wave3 + noise`, where `noise = Math.random() * 0.15`
is passed in explicitly as the host's random sample and `hostSin` stands for
the host's `Math.sin`. -/
def demoBase (hostSin : ℚ → ℚ) (t : ℚ) (i : ℕ) (noise : ℚ) : ℚ :=
  0.35 + hostSin (wave1Arg t i) * 0.3
    + hostSin (t / 250 + i * 0.7) * 0.2
    + hostSin (t / 600 - i * 0.3) * 0.15
    + noise

/-- One band of the demo branch for one tick (app.js 1851-1864): returns the
new smoothed state and the emitted level `Math.max(0.05, Math.min(1, smoothed))`. -/
def demoStep (hostSin : ℚ → ℚ) (t : ℚ) (i : ℕ) (smoothed noise : ℚ) : ℚ × ℚ :=
  let s := smoothStep smoothing smoothed (demoBase hostSin t i noise)
  (s, max 0.05 (min 1 s))

/-- The level sequence emitted for band `i` by running the demo branch over a
sequence of `(timestamp, noise-sample)` ticks from smoothed state `s0`. -/
def demoRun (hostSin : ℚ → ℚ) (i : ℕ) (s0 : ℚ) : List (ℚ × ℚ) → List ℚ
  | [] => []
  | (t, n) :: rest =>
    (demoStep hostSin t i s0 n).2 :: demoRun hostSin i (demoStep hostSin t i s0 n).1 rest

/-- Per-band peak state: `state.peakLevels[i]` and `state.peakHoldTimes[i]`. -/
structure PeakState where
  peak : ℚ
  lastRise : ℚ

/-- The peak-tracking update in `updateEQBars` (app.js 1884-1891):
rise resets the hold timestamp; after the hold expires the peak decays by
`CONFIG.peakDecay` but never below the current level; otherwise it is held. -/
def updatePeak (t L : ℚ) (s : PeakState) : PeakState :=
  if s.peak ≤ L then { peak := L, lastRise := t }
  else if peakHoldTime < t - s.lastRise then
    { peak := max L (s.peak - peakDecay), lastRise := s.lastRise }
  else s

/-- Folding `updatePeak` over a sequence of `(timestamp, level)` ticks. -/
def runPeak (ticks : List (ℚ × ℚ)) (s : PeakState) : PeakState :=
  ticks.foldl (fun st p => updatePeak p.1 p.2 st) s

/-- `peakSegment = Math.min(CONFIG.eqSegmentCount - 1, Math.floor(peak * CONFIG.eqSegmentCount))`
(app.js 1893-1896). -/
def peakSegment (peak : ℚ) : ℤ :=
  min ((eqSegmentCount : ℤ) - 1) (Int.floor (peak * (eqSegmentCount : ℚ)))

/-- The three segment colour classes used by `updateEQBars`. -/
inductive SegColor
  | red
  | amber
  | blue
deriving DecidableEq

/-- The threshold chain inside the colour assignment (app.js 1908-1914):
`j >= 10` red, `j >= 8` amber, else blue. -/
def zoneColor (j : ℕ) : SegColor :=
  if 10 ≤ j then .red else if 8 ≤ j then .amber else .blue

/-- `targetColor` as computed per segment (app.js 1906-1915): the zone colour
when the segment should be lit or should carry the peak-hold marker, and
`null` (no colour) otherwise. -/
def targetColor (shouldBeLit shouldBePeak : Bool) (j : ℕ) : Option SegColor :=
  if shouldBeLit || shouldBePeak then some (zoneColor j) else none

/-- The per-segment tuple computed inside `updateEQBars`'s inner loop
(app.js 1899-1915): `shouldBeLit`, `targetColor`, `isTopLit`, `shouldBePeak`. -/
structure SegComputed where
  shouldBeLit : Bool
  color : Option SegColor
  isTopLit : Bool
  shouldBePeak : Bool
deriving DecidableEq

/-- The per-segment state retained in the `segments` cache (app.js
1780-1786): fields `lit`, `color`, `peak`, `isPeakHold`. -/
structure SegState where
  lit : Bool
  color : Option SegColor
  peak : Bool
  isPeakHold : Bool
deriving DecidableEq

/-- The retained state a computed tuple is written back as (app.js
1926-1944: each differing field is overwritten with the computed value). -/
def segOfComputed (c : SegComputed) : SegState :=
  { lit := c.shouldBeLit, color := c.color, peak := c.isTopLit, isPeakHold := c.shouldBePeak }

/-- One segment of the diffing step (app.js 1917-1944): if the stored tuple
equals the computed one (`needsUpdate` false) nothing is rewritten and no
change is emitted; otherwise the differing fields are rewritten (leaving the
stored state equal to the computed tuple) and a change is emitted. -/
def applySeg (seg : SegState) (c : SegComputed) : SegState × Bool :=
  if seg.lit = c.shouldBeLit ∧ seg.color = c.color ∧ seg.peak = c.isTopLit ∧
      seg.isPeakHold = c.shouldBePeak
  then (seg, false)
  else (segOfComputed c, true)

/-- The diffing step over a whole list of segments: returns the new stored
states and the per-segment change flags (the emitted change-set is the
positions flagged `true`). -/
def applyTick (prev : List SegState) (comps : List SegComputed) :
    List SegState × List Bool :=
  ((List.zipWith applySeg prev comps).map Prod.fst,
    (List.zipWith applySeg prev comps).map Prod.snd)

/-- `state.audioMode` (app.js, state field `audioMode`): `demo`, `mic` or `file`. -/
inductive AudioMode
  | demo
  | mic
  | file
deriving DecidableEq

/-- The module `state` fields touched by audio-source management (app.js
858-881), with Web Audio handles modelled as presence flags and the DOM-only
fields omitted.  `output` and `logs` model `state.output` / `state.logs` as
written by `setOutput` / `addLog`. -/
structure AppState where
  audioCtx : Bool
  analyser : Bool
  frequencyData : Bool
  smoothedLevels : List ℚ
  peakLevels : List ℚ
  peakHoldTimes : List ℚ
  micStream : Bool
  audioElement : Bool
  audioSource : Bool
  audioMode : AudioMode
  isPlaying : Bool
  output : String
  logs : List String

/-- `addLog(message)` (app.js 1978-1988), state part: `state.logs.push(message)`. -/
def addLog (msg : String) (s : AppState) : AppState :=
  { s with logs := s.logs ++ [msg] }

/-- `setOutput` state part: `state.output = message`. -/
def setOutput (msg : String) (s : AppState) : AppState :=
  { s with output := msg }

/-- `initAudioContext()` (app.js 1574-1591): a no-op when the context already
exists; otherwise creates the context/analyser/frequency-data and re-creates
the three per-band arrays filled with `0`. -/
def initAudioContext (s : AppState) : AppState :=
  if s.audioCtx then s
  else
    addLog ("AUDIO ENGINE INITIALIZED")
      { s with
        audioCtx := true
        analyser := true
        frequencyData := true
        smoothedLevels := List.replicate eqBarCount 0
        peakLevels := List.replicate eqBarCount 0
        peakHoldTimes := List.replicate eqBarCount 0 }

/-- `stopAudioSource()` (app.js 1729-1757), state part: stop and null the mic
stream and the audio element, disconnect and null the source, and return to
demo mode (the UI resets it also performs are presentation-only). -/
def stopAudioSource (s : AppState) : AppState :=
  { s with
    micStream := false
    audioElement := false
    audioSource := false
    audioMode := .demo
    isPlaying := false }

/-- `stopMicrophone()` (app.js 1633-1650), state part. -/
def stopMicrophone (s : AppState) : AppState :=
  addLog ("MICROPHONE DISCONNECTED") (setOutput ("READY...")
    { s with micStream := false, audioSource := false, audioMode := .demo })

/-- `toggleMicrophone()` (app.js 1597-1631) on the success path: when already
in mic mode it stops the microphone; otherwise it releases the current
source, (lazily) initializes the audio context, and on a successful
`getUserMedia` wires the stream into the analyser and enters mic mode. -/
def toggleMicSuccess (s : AppState) : AppState :=
  if s.audioMode = .mic then stopMicrophone s
  else
    addLog ("MICROPHONE CONNECTED") (setOutput ("MICROPHONE ACTIVE")
      { initAudioContext (stopAudioSource s) with
        micStream := true
        audioSource := true
        audioMode := .mic })

/-- `toggleMicrophone()` (app.js 1597-1631) on the failure path: the current
source has already been released and the context initialized when
`getUserMedia` rejects (e.g. permission denied); the catch block logs the
error and sets the output, and the mode is left as set by `stopAudioSource`. -/
def toggleMicFailure (errMsg : String) (s : AppState) : AppState :=
  if s.audioMode = .mic then stopMicrophone s
  else
    setOutput ("MIC ACCESS DENIED")
      (addLog ("MIC ERROR: " ++ errMsg) (initAudioContext (stopAudioSource s)))

/-- `handleFileSelect` (app.js 1655-1704), state part for a chosen file:
release the current source, (lazily) initialize the context, create the
element and media-element source, and enter file mode (filename display
truncation is presentation-only and elided). -/
def handleFileSelect (fileName : String) (s : AppState) : AppState :=
  addLog ("LOADED: " ++ fileName)
    { initAudioContext (stopAudioSource s) with
      audioElement := true
      audioSource := true
      audioMode := .file
      isPlaying := false }

/-- Number of open exclusive source resources: the mic stream and the file
audio element. -/
def activeSourceCount (s : AppState) : ℕ :=
  (if s.micStream then 1 else 0) + (if s.audioElement then 1 else 0)

/-- The branch condition of `getEQLevels` (app.js 1801): the live branch runs
only when `state.audioMode !== 'demo' && state.analyser && state.frequencyData`;
otherwise the demo synthesis produces the frame. -/
def usesLiveBranch (s : AppState) : Bool :=
  (decide (s.audioMode ≠ .demo)) && s.analyser && s.frequencyData

/-- A pipeline state in demo mode before any audio context exists (as after
`init()` ran `buildEQBars` and some demo frames executed): the smoothed
levels have evolved away from zero. -/
def demoEvolvedState : AppState :=
  { audioCtx := false
    analyser := false
    frequencyData := false
    smoothedLevels := List.replicate eqBarCount (1/2)
    peakLevels := List.replicate eqBarCount 0
    peakHoldTimes := List.replicate eqBarCount 0
    micStream := false
    audioElement := false
    audioSource := false
    audioMode := .demo
    isPlaying := false
    output := "READY..."
    logs := [] }

/-- A pipeline state after the audio context has been created. -/
def liveReadyState : AppState :=
  { audioCtx := true
    analyser := true
    frequencyData := true
    smoothedLevels := List.replicate eqBarCount (1/2)
    peakLevels := List.replicate eqBarCount 0
    peakHoldTimes := List.replicate eqBarCount 0
    micStream := false
    audioElement := false
    audioSource := false
    audioMode := .demo
    isPlaying := false
    output := "READY..."
    logs := [] }

theorem applySeg_fst (seg : SegState) (c : SegComputed) :
    (applySeg seg c).1 = segOfComputed c := by
  unfold applySeg
  split_ifs with h
  · obtain ⟨h1, h2, h3, h4⟩ := h
    simp [segOfComputed, ← h1, ← h2, ← h3, ← h4]
  · rfl

theorem applySeg_of_equal (c : SegComputed) :
    applySeg (segOfComputed c) c = (segOfComputed c, false) := by
  unfold applySeg
  rw [if_pos]
  exact ⟨rfl, rfl, rfl, rfl⟩

/-- `C2`: the claim says the colour assigned to segment `j` is a function of
`j` and the thresholds alone, independent of the lit / peak-marker flags.
Counterexample at `j = 0`: a lit segment gets blue while an unlit non-marker
segment gets no colour, so the assigned colour does depend on those flags. -/
theorem targetColor_depends_on_flags :
    targetColor true false 0 ≠ targetColor false false 0 := by
  decide

/-- `C2` (amended): whenever a colour is assigned at all (the segment is lit
or carries the peak-hold marker), it is `zoneColor j`, a pure deterministic
function of the segment index and the fixed thresholds; in particular any two
flag combinations that assign a colour assign the same one. -/
theorem targetColor_pure_when_assigned (l p l2 p2 : Bool) (j : ℕ)
    (h : (l || p) = true) (h2 : (l2 || p2) = true) :
    targetColor l p j = some (zoneColor j) ∧ targetColor l p j = targetColor l2 p2 j := by
  unfold targetColor
  rw [h, h2]
  exact ⟨rfl, rfl⟩

/-- Witness for `C2` at concrete flags and `j = 0`. -/
theorem targetColor_pure_when_assigned_witness :
    targetColor true false 0 = some (zoneColor 0) ∧
      targetColor true false 0 = targetColor false true 0 :=
  targetColor_pure_when_assigned true false false true 0 (by decide) (by decide)

/-- `C1`: the claim says that with levels `[0, 0.5, 1, 0.3]` over four ticks
and the hold duration exceeded by tick 4, the tracked peak remains `1.0` at
tick 4.  Counterexample with ticks at `t = 0, 100, 200, 800` (the hold is
exceeded: `800 - 200 = 600 > 500`): the decay branch fires and the peak drops
by one decay step to `0.98`, so it does not remain `1`. -/
theorem scenarioA_peak_decays :
    peakHoldTime < 800 - (runPeak [(0, 0), (100, 1/2), (200, 1)] ⟨0, 0⟩).lastRise ∧
      (runPeak [(0, 0), (100, 1/2), (200, 1), (800, 3/10)] ⟨0, 0⟩).peak ≠ 1 := by
  norm_num [runPeak, updatePeak, peakHoldTime, peakDecay, List.foldl]

/-- `C1` (amended): in the same scenario the peak at tick 4 is
`1 - peakDecay = 0.98`—one decay step below `1`, still at least the current
level `0.3`—and the displayed `peakSegment` is still `11`. -/
theorem scenarioA_peak_after_hold :
    (runPeak [(0, 0), (100, 1/2), (200, 1), (800, 3/10)] ⟨0, 0⟩).peak = 49/50 ∧
      (3/10 : ℚ) ≤ (runPeak [(0, 0), (100, 1/2), (200, 1), (800, 3/10)] ⟨0, 0⟩).peak ∧
      peakSegment (runPeak [(0, 0), (100, 1/2), (200, 1), (800, 3/10)] ⟨0, 0⟩).peak = 11 := by
  have h : (runPeak [(0, 0), (100, 1/2), (200, 1), (800, 3/10)] ⟨0, 0⟩).peak = 49/50 := by
    norm_num [runPeak, updatePeak, peakHoldTime, peakDecay, List.foldl]
  refine ⟨h, ?_, ?_⟩
  · rw [h]; norm_num
  · rw [h]; norm_num [peakSegment, eqSegmentCount]

/-- `C5`: after every peak-tracker update the stored peak is at least the
current level (in the rise branch it equals the level, in the decay branch it
is `max L (peak - decayStep)`, and the hold branch is only reached when the
old peak already exceeds the level); moreover when the level is below the
peak and the hold duration is exceeded, the update is exactly
`max L (peak - peakDecay)`. -/
theorem updatePeak_ge_level (t L : ℚ) (s : PeakState) :
    L ≤ (updatePeak t L s).peak ∧
      (L < s.peak → peakHoldTime < t - s.lastRise →
        (updatePeak t L s).peak = max L (s.peak - peakDecay)) := by
  unfold updatePeak
  split_ifs with h1 h2
  · exact ⟨le_refl L, fun hlt _ => absurd h1 (not_le.mpr hlt)⟩
  · exact ⟨le_max_left _ _, fun _ _ => rfl⟩
  · exact ⟨le_of_not_le h1, fun _ hh => absurd hh h2⟩

/-- Witness for `C5` at the Scenario A decay tick: level `0.3`, stored peak
`1` risen at `t = 200`, update at `t = 800`. -/
theorem updatePeak_ge_level_witness :
    (3/10 : ℚ) ≤ (updatePeak 800 (3/10) ⟨1, 200⟩).peak ∧
      (updatePeak 800 (3/10) ⟨1, 200⟩).peak = max (3/10) (1 - peakDecay) :=
  ⟨(updatePeak_ge_level 800 (3/10) ⟨1, 200⟩).1,
    (updatePeak_ge_level 800 (3/10) ⟨1, 200⟩).2 (by norm_num)
      (by norm_num [peakHoldTime])⟩

theorem smoothStep_mem_unit (alpha s r : ℚ) (ha : 0 ≤ alpha) (ha1 : alpha ≤ 1)
    (hs : 0 ≤ s) (hs1 : s ≤ 1) (hr : 0 ≤ r) (hr1 : r ≤ 1) :
    0 ≤ smoothStep alpha s r ∧ smoothStep alpha s r ≤ 1 := by
  unfold smoothStep
  constructor
  · nlinarith [mul_nonneg hs ha, mul_nonneg hr (by linarith : (0 : ℚ) ≤ 1 - alpha)]
  · nlinarith

/-- `C6`: for any smoothing factor `alpha ∈ [0,1]`, any starting smoothed
value in `[0,1]` and any raw-level sequence with entries in `[0,1]`, every
smoothed value produced by iterating
`smoothed = smoothed * alpha + raw * (1 - alpha)` stays in `[0,1]`. -/
theorem smoothTrace_mem_unit (alpha s0 : ℚ) (raws : List ℚ)
    (ha : 0 ≤ alpha) (ha1 : alpha ≤ 1) (hs : 0 ≤ s0) (hs1 : s0 ≤ 1)
    (hraws : ∀ r ∈ raws, 0 ≤ r ∧ r ≤ 1) :
    ∀ x ∈ smoothTrace alpha s0 raws, 0 ≤ x ∧ x ≤ 1 := by
  induction raws generalizing s0 with
  | nil => intro x hx; simp [smoothTrace] at hx
  | cons r rs ih =>
    intro x hx
    have hr := hraws r (List.mem_cons_self r rs)
    have hstep := smoothStep_mem_unit alpha s0 r ha ha1 hs hs1 hr.1 hr.2
    rw [smoothTrace, List.mem_cons] at hx
    rcases hx with hx | hx
    · rw [hx]; exact hstep
    · exact ih (smoothStep alpha s0 r) hstep.1 hstep.2
        (fun q hq => hraws q (List.mem_cons_of_mem r hq)) x hx

/-- Witness for `C6` with the module's `alpha = 0.6`, `s0 = 0` and raws
`[1, 1, 1]` (Scenario B): the second trace entry is `0.64`, inside `[0,1]`. -/
theorem smoothTrace_mem_unit_witness : 0 ≤ (16/25 : ℚ) ∧ (16/25 : ℚ) ≤ 1 :=
  smoothTrace_mem_unit smoothing 0 [1, 1, 1]
    (by norm_num [smoothing]) (by norm_num [smoothing]) (by norm_num) (by norm_num)
    (by intro r hr; fin_cases hr <;> norm_num) (16/25)
    (by norm_num [smoothTrace, smoothStep, smoothing])

/-- `C3`: the claim says the synthesized demo level is a pure function of the
timestamp, band index and running smoothed state, so two runs from equal
state and timestamps agree.  Counterexample: the demo branch also adds
`Math.random() * 0.15`; with the host sine fixed to the zero function, band
`0`, timestamp `0` and smoothed state `0`, jitter samples `0` and `0.1`
yield emitted levels `0.14` and `0.18`. -/
theorem demoStep_depends_on_jitter :
    (demoStep (fun _ => 0) 0 0 0 0).2 ≠ (demoStep (fun _ => 0) 0 0 0 (1/10)).2 := by
  norm_num [demoStep, demoBase, smoothStep, smoothing, wave1Arg]

/-- The hypotheses about the host sine used below hold for the genuine sine:
`sin 0 = 0`, and the band-1 phase combination
`sin(0.4) * 0.3 + sin(0.7) * 0.2 + sin(-0.3) * 0.15` is strictly positive
(it is about `0.193`, so it stays nonzero under float64 rounding of
`Math.sin`), by the cubic lower bound on `sin` and `sin x < x`. -/
theorem real_sin_band1_phase_facts :
    Real.sin 0 = 0 ∧
      Real.sin (2/5) * 0.3 + Real.sin (7/10) * 0.2 + Real.sin (-(3/10)) * 0.15 ≠ 0 := by
  constructor
  · exact Real.sin_zero
  · have h1 : (2/5 : ℝ) - (2/5) ^ 3 / 4 < Real.sin (2/5) :=
      Real.sin_gt_sub_cube (by norm_num) (by norm_num)
    have h2 : (7/10 : ℝ) - (7/10) ^ 3 / 4 < Real.sin (7/10) :=
      Real.sin_gt_sub_cube (by norm_num) (by norm_num)
    have h3 : Real.sin (3/10) < 3/10 := Real.sin_lt (by norm_num)
    have h4 : Real.sin (-(3/10)) = -Real.sin (3/10) := Real.sin_neg _
    nlinarith

/-- `C3` (amended): the demo synthesis is a pure function of the timestamp,
band index, running smoothed state and the per-tick jitter sample: two runs
from equal smoothed state over equal `(timestamp, jitter)` sequences emit
identical level sequences; and the per-band-distinct phase offsets keep the
bands from all being assigned an identical value: for any host sine with
`sin 0 = 0` whose band-1 phase combination
`sin(0.4) * 0.3 + sin(0.7) * 0.2 + sin(-0.3) * 0.15` is nonzero (true of the
genuine sine, see the preceding lemma), bands `0` and `1` are assigned
different levels at timestamp `0` from equal smoothed state `0` and equal
jitter `0`—band 0 emits `0.14` strictly inside both clamps, so no clamp can
equalize the two. -/
theorem demoRun_deterministic_given_jitter :
    (∀ (f : ℚ → ℚ) (i : ℕ) (s0 : ℚ) (ticks ticks2 : List (ℚ × ℚ)),
        ticks = ticks2 → demoRun f i s0 ticks = demoRun f i s0 ticks2) ∧
      (∀ f : ℚ → ℚ, f 0 = 0 →
        f (2/5) * 0.3 + f (7/10) * 0.2 + f (-(3/10)) * 0.15 ≠ 0 →
        (demoStep f 0 0 0 0).2 ≠ (demoStep f 0 1 0 0).2) := by
  constructor
  · intro f i s0 ticks ticks2 h
    rw [h]
  · intro f h0 hS heq
    apply hS
    simp only [demoStep, demoBase, smoothStep, smoothing, wave1Arg] at heq
    norm_num [h0] at heq
    set a := f (2/5) with ha
    set b := f (7/10) with hb
    set c := f (-(3/10)) with hc
    have key : (7/20 + a * (3/10) + b * (1/5) + c * (3/20)) * (2/5) = 7/50 := by
      rcases le_total (1 : ℚ)
          ((7/20 + a * (3/10) + b * (1/5) + c * (3/20)) * (2/5)) with h1 | h1
      · rw [min_eq_left h1] at heq
        rw [max_eq_right (by norm_num : (1/20 : ℚ) ≤ 1)] at heq
        norm_num at heq
      · rw [min_eq_right h1] at heq
        rcases le_total ((7/20 + a * (3/10) + b * (1/5) + c * (3/20)) * (2/5))
            (1/20) with h2 | h2
        · rw [max_eq_left h2] at heq
          norm_num at heq
        · rw [max_eq_right h2] at heq
          linarith
    linarith [key]

/-- Witness for `C3`: determinism on a concrete one-tick run, and the
band-0-versus-band-1 separation for a concrete host sine satisfying the two
sine facts. -/
theorem demoRun_deterministic_given_jitter_witness :
    demoRun (fun _ => 0) 0 0 [(0, 0)] = demoRun (fun _ => 0) 0 0 [(0, 0)] ∧
      (demoStep (fun x => if x = 0 then 0 else 2/5) 0 0 0 0).2
        ≠ (demoStep (fun x => if x = 0 then 0 else 2/5) 0 1 0 0).2 :=
  ⟨demoRun_deterministic_given_jitter.1 (fun _ => 0) 0 0 [(0, 0)] [(0, 0)] rfl,
    demoRun_deterministic_given_jitter.2 (fun x => if x = 0 then 0 else 2/5)
      (by norm_num) (by norm_num)⟩

theorem const_map_sum (l : List ℤ) (c : ℚ) :
    (l.map (fun _ => c)).sum = l.length * c := by
  induction l with
  | nil => simp
  | cons a t ih => simp [ih]; ring

theorem binRange_length (lo hi : ℤ) :
    (binRange lo hi).length = (hi + 1 - lo).toNat := by
  rw [binRange, List.length_map, List.length_range]

theorem rawBandLevel_const (c sr : ℚ) (B : ℕ) (low high gain : ℚ)
    (h : 0 < (readBins sr B low high).length) :
    rawBandLevel (fun _ => c) sr B low high gain = min 1 (c / 255 * gain) := by
  simp only [rawBandLevel]
  rw [const_map_sum, if_pos h]
  have hne : ((readBins sr B low high).length : ℚ) ≠ 0 := by
    exact_mod_cast Nat.pos_iff_ne_zero.mp h
  rw [mul_div_cancel_left₀ c hne]

theorem rawBandLevel_mem_unit (m : ℤ → ℚ) (sr : ℚ) (B : ℕ) (low high gain : ℚ)
    (hm : ∀ bin, 0 ≤ m bin) (hg : 0 ≤ gain) :
    0 ≤ rawBandLevel m sr B low high gain ∧ rawBandLevel m sr B low high gain ≤ 1 := by
  simp only [rawBandLevel]
  refine ⟨le_min (by norm_num) ?_, min_le_left _ _⟩
  refine mul_nonneg ?_ hg
  split_ifs with h
  · refine div_nonneg (div_nonneg ?_ (by positivity)) (by norm_num)
    refine List.sum_nonneg ?_
    intro x hx
    rcases List.mem_map.mp hx with ⟨bin, _, rfl⟩
    exact hm bin
  · exact le_refl 0

theorem scenarioC_band0_bins : (readBins 8000 256 0 1000).length = 65 := by
  have h1 : lowBinOf 0 ((8000 : ℚ) / 2) 256 = 0 := by norm_num [lowBinOf]
  have h2 : highBinOf 1000 ((8000 : ℚ) / 2) 256 = 64 := by norm_num [highBinOf]
  rw [readBins, h1, h2, binRange_length]
  decide

theorem scenarioC_band1_bins : (readBins 8000 256 1000 2000).length = 65 := by
  have h1 : lowBinOf 1000 ((8000 : ℚ) / 2) 256 = 64 := by norm_num [lowBinOf]
  have h2 : highBinOf 2000 ((8000 : ℚ) / 2) 256 = 128 := by norm_num [highBinOf]
  rw [readBins, h1, h2, binRange_length]
  decide

/-- `C7` (Scenario C): with band table entries `(0, 1000, 1)` and
`(1000, 2000, 2)`, sample rate `8000` (so 256 bins at fftSize 512) and all
raw magnitudes `128`, the mapper yields pre-smoothing level `128/255 ≈ 0.502`
for band 0 and exactly `1` for band 1 (the gain-boosted `256/255` is clamped);
and for any magnitudes `≥ 0` and gain `≥ 0` every band level lies in `[0,1]`. -/
theorem scenarioC_mapper :
    rawBandLevel (fun _ => 128) 8000 256 0 1000 1 = 128/255 ∧
      |rawBandLevel (fun _ => 128) 8000 256 0 1000 1 - 0.502| < 1/1000 ∧
      rawBandLevel (fun _ => 128) 8000 256 1000 2000 2 = 1 ∧
      (∀ (m : ℤ → ℚ) (sr : ℚ) (B : ℕ) (low high gain : ℚ),
        (∀ bin, 0 ≤ m bin) → 0 ≤ gain →
        0 ≤ rawBandLevel m sr B low high gain ∧
          rawBandLevel m sr B low high gain ≤ 1) := by
  have hb0 : rawBandLevel (fun _ => 128) 8000 256 0 1000 1 = 128/255 := by
    rw [rawBandLevel_const 128 8000 256 0 1000 1 (by rw [scenarioC_band0_bins]; norm_num)]
    norm_num
  have hb1 : rawBandLevel (fun _ => 128) 8000 256 1000 2000 2 = 1 := by
    rw [rawBandLevel_const 128 8000 256 1000 2000 2 (by rw [scenarioC_band1_bins]; norm_num)]
    norm_num
  refine ⟨hb0, ?_, hb1, fun m sr B low high gain hm hg =>
    rawBandLevel_mem_unit m sr B low high gain hm hg⟩
  rw [hb0]
  rw [abs_sub_lt_iff]
  norm_num

/-- Witness for `C7`'s bounded part at the Scenario C inputs. -/
theorem scenarioC_mapper_witness :
    0 ≤ rawBandLevel (fun _ => 128) 8000 256 0 1000 1 ∧
      rawBandLevel (fun _ => 128) 8000 256 0 1000 1 ≤ 1 :=
  scenarioC_mapper.2.2.2 (fun _ => 128) 8000 256 0 1000 1
    (fun _ => by norm_num) (by norm_num)

theorem mem_binRange_bounds (lo hi bin : ℤ) (h : bin ∈ binRange lo hi) :
    lo ≤ bin ∧ bin ≤ hi := by
  rcases List.mem_map.mp h with ⟨k, hk, rfl⟩
  have hk2 := List.mem_range.mp hk
  omega

theorem getD_nonneg_of_forall (l : List ℚ) (hl : ∀ x ∈ l, 0 ≤ x) (i : ℕ) :
    0 ≤ l.getD i 0 := by
  induction l generalizing i with
  | nil => simp [List.getD]
  | cons a t ih =>
    cases i with
    | zero => simpa using hl a (List.mem_cons_self a t)
    | succ n =>
      simpa [List.getD] using ih (fun x hx => hl x (List.mem_cons_of_mem a hx)) n

theorem frequencyBands_getD_nonneg (i : ℕ) : 0 ≤ frequencyBands.getD i 0 := by
  refine getD_nonneg_of_forall frequencyBands ?_ i
  intro x hx
  fin_cases hx <;> norm_num

/-- `C10`: in the live branch, for bin count `B ≥ 1` and positive sample
rate, every bin index visited by band `i`'s averaging loop lies in
`[0, B-1]` (`lowBin` is non-negative because the table's `lowHz` entries are
non-negative, and the loop bound is capped at `B - 1`); and when the bin
range is empty the band level is `0` by definition instead of a division by
zero. -/
theorem liveBins_in_bounds (B : ℕ) (sr : ℚ) (i : ℕ) (m : ℤ → ℚ) (gain : ℚ)
    (hB : 1 ≤ B) (hsr : 0 < sr) :
    (∀ bin ∈ readBins sr B (frequencyBands.getD i 0) (frequencyBands.getD (i + 1) 0),
        0 ≤ bin ∧ bin ≤ (B : ℤ) - 1) ∧
      ((readBins sr B (frequencyBands.getD i 0) (frequencyBands.getD (i + 1) 0)).length = 0 →
        rawBandLevel m sr B (frequencyBands.getD i 0) (frequencyBands.getD (i + 1) 0) gain
          = 0) := by
  constructor
  · intro bin hbin
    rw [readBins] at hbin
    obtain ⟨hlo, hhi⟩ := mem_binRange_bounds _ _ _ hbin
    have hlow : (0 : ℤ) ≤ lowBinOf (frequencyBands.getD i 0) (sr / 2) B := by
      rw [lowBinOf]
      refine Int.floor_nonneg.mpr ?_
      have := frequencyBands_getD_nonneg i
      positivity
    have hhigh : highBinOf (frequencyBands.getD (i + 1) 0) (sr / 2) B ≤ (B : ℤ) - 1 :=
      min_le_right _ _
    exact ⟨le_trans hlow hlo, le_trans hhi hhigh⟩
  · intro hlen
    simp only [rawBandLevel]
    rw [if_neg (by omega)]
    norm_num

/-- Witness for `C10`: with 256 bins at sample rate 8000, bin `1` read for
band 0 (20–40 Hz) is in `[0, 255]`, and band 15 (12–20 kHz, entirely above
the 4 kHz Nyquist) has an empty bin range and level `0`. -/
theorem liveBins_in_bounds_witness :
    ((0 : ℤ) ≤ 1 ∧ (1 : ℤ) ≤ (256 : ℤ) - 1) ∧
      rawBandLevel (fun _ => 128) 8000 256 (frequencyBands.getD 15 0)
        (frequencyBands.getD (15 + 1) 0) (bandGains.getD 15 0) = 0 := by
  constructor
  · refine (liveBins_in_bounds 256 8000 0 (fun _ => 128) 1 (by norm_num) (by norm_num)).1
      1 ?_
    have h2 : readBins 8000 256 (frequencyBands.getD 0 0) (frequencyBands.getD (0 + 1) 0)
        = binRange 1 3 := by
      rw [readBins]
      have hlo : lowBinOf (frequencyBands.getD 0 0) ((8000 : ℚ) / 2) 256 = 1 := by
        norm_num [lowBinOf, frequencyBands]
      have hhi : highBinOf (frequencyBands.getD (0 + 1) 0) ((8000 : ℚ) / 2) 256 = 3 := by
        have h40 : frequencyBands.getD (0 + 1) 0 = 40 := rfl
        have hc : ⌈(64/25 : ℚ)⌉ = 3 := by
          rw [Int.ceil_eq_iff]
          norm_num
        rw [highBinOf, h40]
        have harg : (40 : ℚ) / (8000 / 2) * ((256 : ℕ) : ℚ) = 64/25 := by
          push_cast
          norm_num
        rw [harg, hc]
        decide
      rw [hlo, hhi]
    rw [h2]
    decide
  · refine (liveBins_in_bounds 256 8000 15 (fun _ => 128) (bandGains.getD 15 0)
      (by norm_num) (by norm_num)).2 ?_
    have h2 : readBins 8000 256 (frequencyBands.getD 15 0) (frequencyBands.getD (15 + 1) 0)
        = binRange 768 255 := by
      rw [readBins]
      have hlo : lowBinOf (frequencyBands.getD 15 0) ((8000 : ℚ) / 2) 256 = 768 := by
        norm_num [lowBinOf, frequencyBands]
      have hhi : highBinOf (frequencyBands.getD (15 + 1) 0) ((8000 : ℚ) / 2) 256 = 255 := by
        norm_num [highBinOf, frequencyBands]
      rw [hlo, hhi]
    rw [h2]
    decide

theorem applyTick_idem (prev : List SegState) (comps : List SegComputed) :
    (applyTick (applyTick prev comps).1 comps).1 = (applyTick prev comps).1 ∧
      (applyTick (applyTick prev comps).1 comps).2.all (fun b => !b) = true := by
  induction prev generalizing comps with
  | nil => simp [applyTick]
  | cons s t ih =>
    cases comps with
    | nil => simp [applyTick]
    | cons c cs =>
      have iht := ih cs
      simp only [applyTick, List.zipWith_cons_cons, List.map_cons, List.all_cons] at iht ⊢
      rw [applySeg_fst s c]
      simp only [List.zipWith_cons_cons, List.map_cons, applySeg_of_equal c,
        List.all_cons] at iht ⊢
      exact ⟨by rw [iht.1], by simp [iht.2]⟩

/-- `C8`: if two consecutive ticks compute identical per-segment tuples, the
second tick emits an empty change-set (every change flag is `false`) and
rewrites no segment state. -/
theorem identical_frames_empty_changeset (prev : List SegState)
    (comps comps2 : List SegComputed) (h : comps = comps2) :
    (applyTick (applyTick prev comps).1 comps2).2.all (fun b => !b) = true ∧
      (applyTick (applyTick prev comps).1 comps2).1 = (applyTick prev comps).1 := by
  subst h
  exact ⟨(applyTick_idem prev comps).2, (applyTick_idem prev comps).1⟩

/-- Witness for `C8` on a one-segment frame that changes on the first tick. -/
theorem identical_frames_empty_changeset_witness :
    (applyTick (applyTick [⟨false, none, false, false⟩]
          [⟨true, some .blue, true, false⟩]).1
        [⟨true, some .blue, true, false⟩]).2.all (fun b => !b) = true ∧
      (applyTick (applyTick [⟨false, none, false, false⟩]
            [⟨true, some .blue, true, false⟩]).1
          [⟨true, some .blue, true, false⟩]).1
        = (applyTick [⟨false, none, false, false⟩]
            [⟨true, some .blue, true, false⟩]).1 :=
  identical_frames_empty_changeset _ _ _ rfl

/-- `C4`: the claim says switching the active source never resets the
per-band smoothed levels.  Counterexample: from a demo-mode state whose
smoothed levels have evolved (and with no audio context yet, as before the
first live activation), a successful mic activation runs `initAudioContext`,
which creates the context and re-fills `state.smoothedLevels` with zeros. -/
theorem first_activation_resets_smoothing :
    (toggleMicSuccess demoEvolvedState).smoothedLevels
      ≠ demoEvolvedState.smoothedLevels := by
  intro h
  have h2 : List.replicate eqBarCount (0 : ℚ) = List.replicate eqBarCount (1/2) := by
    simpa [toggleMicSuccess, demoEvolvedState, stopMicrophone, stopAudioSource,
      initAudioContext, addLog, setOutput] using h
  have h3 := congrArg List.head? h2
  rw [eqBarCount] at h3
  simp only [List.replicate_succ, List.head?_cons, Option.some.injEq] at h3
  norm_num at h3

/-- `C4` (amended): once the audio context exists, switching the active
source (stopping any source, toggling the microphone on—success or
failure—or selecting a file) leaves every per-band smoothed level unchanged;
only the first live activation, which lazily creates the audio context,
resets the smoothed levels to zero. -/
theorem switch_preserves_smoothing_after_ctx (s : AppState) (msg fileName : String)
    (h : s.audioCtx = true) :
    (stopAudioSource s).smoothedLevels = s.smoothedLevels ∧
      (stopMicrophone s).smoothedLevels = s.smoothedLevels ∧
      (toggleMicSuccess s).smoothedLevels = s.smoothedLevels ∧
      (toggleMicFailure msg s).smoothedLevels = s.smoothedLevels ∧
      (handleFileSelect fileName s).smoothedLevels = s.smoothedLevels := by
  have hinit : initAudioContext (stopAudioSource s) = stopAudioSource s := by
    simp [initAudioContext, stopAudioSource, h]
  have hstop : (stopAudioSource s).smoothedLevels = s.smoothedLevels := rfl
  refine ⟨rfl, rfl, ?_, ?_, ?_⟩
  · unfold toggleMicSuccess
    split_ifs with hm
    · rfl
    · simp only [addLog, setOutput, hinit, hstop]
  · unfold toggleMicFailure
    split_ifs with hm
    · rfl
    · simp only [addLog, setOutput, hinit, hstop]
  · unfold handleFileSelect
    simp only [addLog, setOutput, hinit, hstop]

/-- Witness for `C4` (amended) at a concrete context-ready state. -/
theorem switch_preserves_smoothing_after_ctx_witness :
    (stopAudioSource liveReadyState).smoothedLevels = liveReadyState.smoothedLevels ∧
      (stopMicrophone liveReadyState).smoothedLevels = liveReadyState.smoothedLevels ∧
      (toggleMicSuccess liveReadyState).smoothedLevels = liveReadyState.smoothedLevels ∧
      (toggleMicFailure ("Permission denied") liveReadyState).smoothedLevels
        = liveReadyState.smoothedLevels ∧
      (handleFileSelect ("track.mp3") liveReadyState).smoothedLevels
        = liveReadyState.smoothedLevels :=
  switch_preserves_smoothing_after_ctx liveReadyState ("Permission denied") ("track.mp3") rfl

/-- `C9`: when mic activation fails, the previously active source was already
released (by the unconditional `stopAudioSource` before the `try`), the state
is deterministically back in demo mode with no live resource open—neither at
the intermediate point after release nor afterwards is more than zero sources
open, so two sources are never simultaneously active—the error is reported
(`MIC ERROR` log entry and `MIC ACCESS DENIED` output), and the next
`getEQLevels` tick takes the demo branch, so frames keep coming. -/
theorem mic_failure_falls_back_to_demo (s : AppState) (msg : String)
    (h : s.audioMode ≠ .mic) :
    (toggleMicFailure msg s).audioMode = .demo ∧
      (toggleMicFailure msg s).micStream = false ∧
      (toggleMicFailure msg s).audioElement = false ∧
      (toggleMicFailure msg s).audioSource = false ∧
      activeSourceCount (stopAudioSource s) = 0 ∧
      activeSourceCount (toggleMicFailure msg s) = 0 ∧
      (toggleMicFailure msg s).output = "MIC ACCESS DENIED" ∧
      ("MIC ERROR: " ++ msg) ∈ (toggleMicFailure msg s).logs ∧
      usesLiveBranch (toggleMicFailure msg s) = false := by
  unfold toggleMicFailure
  rw [if_neg h]
  unfold initAudioContext
  split_ifs with hctx <;>
    simp [stopAudioSource, addLog, setOutput, activeSourceCount, usesLiveBranch]

/-- Witness for `C9` from a concrete demo-mode state. -/
theorem mic_failure_falls_back_to_demo_witness :
    (toggleMicFailure ("Permission denied") demoEvolvedState).audioMode = .demo ∧
      (toggleMicFailure ("Permission denied") demoEvolvedState).micStream = false ∧
      (toggleMicFailure ("Permission denied") demoEvolvedState).audioElement = false ∧
      (toggleMicFailure ("Permission denied") demoEvolvedState).audioSource = false ∧
      activeSourceCount (stopAudioSource demoEvolvedState) = 0 ∧
      activeSourceCount (toggleMicFailure ("Permission denied") demoEvolvedState) = 0 ∧
      (toggleMicFailure ("Permission denied") demoEvolvedState).output
        = "MIC ACCESS DENIED" ∧
      ("MIC ERROR: " ++ "Permission denied")
        ∈ (toggleMicFailure ("Permission denied") demoEvolvedState).logs ∧
      usesLiveBranch (toggleMicFailure ("Permission denied") demoEvolvedState) = false :=
  mic_failure_falls_back_to_demo demoEvolvedState ("Permission denied") (by decide)
